import Mathlib

/-
Verification of the imageflow graph execution engine and licensing helpers.

Shallow embedding of:
  - imageflow_core/src/flow/mod.rs : the job convergence loop (job_execute),
    codec linking, the five pass functions, job_graph_fully_executed,
    node_visitor_optimize, flow_node_has_dimensions,
    flow_node_inputs_have_dimensions, flow_job_populate_dimensions_for_node.
  - imageflow_helpers/src/licensing/mod.rs : RSADecryptPublic::powm.

The data-model types (NodeStage, EdgeKind, FrameEstimate, the node weight
record, FlowStatusCode) live in flow/definitions.rs and ffi, which are not
part of the provided sources; they are modelled from the spec as noted on
each declaration.  All functions of flow/mod.rs are translated from the
Rust source: several passes are stubs in the source (their bodies are
commented out with FIXME markers) and are therefore identity functions
returning true here, exactly as in the source.
-/

/-- Modelled from the spec: the per-node stage of the node state machine
(flow/definitions.rs is not among the provided sources).  Spec section 3:
one of New, OutboundDimensionsKnown, ReadyForOptimize, Optimized,
ReadyForPostOptimizeFlatten, ReadyForExecution, Executed. -/
inductive NodeStage where
  | New
  | OutboundDimensionsKnown
  | ReadyForOptimize
  | Optimized
  | ReadyForPostOptimizeFlatten
  | ReadyForExecution
  | Executed
deriving DecidableEq

/-- Numeric rank of a stage in the forward order of the state machine,
used to state monotone stage advance. -/
def stageIdx : NodeStage → Nat
  | NodeStage.New => 0
  | NodeStage.OutboundDimensionsKnown => 1
  | NodeStage.ReadyForOptimize => 2
  | NodeStage.Optimized => 3
  | NodeStage.ReadyForPostOptimizeFlatten => 4
  | NodeStage.ReadyForExecution => 5
  | NodeStage.Executed => 6

/-- Modelled from the spec: the payload of a populated frame estimate
(width, height, ...). -/
structure FrameInfo where
  width : Int
  height : Int
deriving DecidableEq

/-- Modelled from the spec: frame_estimate is an option, None until the
node output dimensions are knowable.  The source matches on
FrameEstimate::Some(_) versus everything else. -/
inductive FrameEstimate where
  | None
  | Some (info : FrameInfo)
deriving DecidableEq

/-- Modelled from the spec: cumulative wall-clock cost of a node,
wall_ticks is an unsigned 64-bit counter. -/
structure NodeCost where
  wall_ticks : Nat
deriving DecidableEq

/-- Modelled from the spec: the node weight stored in the graph, with the
fields the claims are about (stage, frame_est, cost). -/
structure Node where
  stage : NodeStage
  frame_est : FrameEstimate
  cost : NodeCost
deriving DecidableEq

instance : Inhabited Node :=
  ⟨{ stage := NodeStage.New, frame_est := FrameEstimate.None, cost := { wall_ticks := 0 } }⟩

/-- Modelled from the spec: edge kinds, None (advisory, no data
dependency) or a positive data-flow kind (primary input, canvas input). -/
inductive EdgeKind where
  | None
  | Input
  | Canvas
deriving DecidableEq

/-- A directed edge of the graph, stored with its endpoints as stable
integer indices (petgraph/daggy node indices). -/
structure Edge where
  source : Nat
  target : Nat
  kind : EdgeKind
deriving DecidableEq

/-- The graph: an index-stable table of node weights plus the edge list.
Node i of the daggy graph is nodes[i]; parents of n are the edges whose
target is n. -/
structure Graph where
  nodes : List Node
  edges : List Edge
deriving DecidableEq

/-- Modelled from the spec: the status codes the engine reports (the ffi
FlowStatusCode enum is not among the provided sources); we include the
codes the claims mention. -/
inductive FlowStatusCode where
  | MaximumGraphPassesExceeded
  | CodecNotFound
  | GraphInvalid
  | NullArgument
deriving DecidableEq

/-- The five pass kinds invoked by the convergence loop of job_execute. -/
inductive PassKind where
  | PopulateDimensionsWhereCertain
  | PreOptimizeFlatten
  | Optimize
  | PostOptimizeFlatten
  | ExecuteWhereCertain
deriving DecidableEq

/-- Observable calls made by job_execute, recorded in order: codec
linking, debug notifications, completion checks, and pass invocations. -/
inductive Event where
  | LinkCodecs
  | NotifyGraphChanged
  | CheckComplete (done : Bool)
  | Pass (k : PassKind)
deriving DecidableEq

/-- True for the debug notification event. -/
def Event.isNotify : Event → Bool
  | Event.NotifyGraphChanged => true
  | _ => false

/-- True for a pass invocation event. -/
def Event.isPass : Event → Bool
  | Event.Pass _ => true
  | _ => false

/-- Result of job_execute: the boolean return value, the error code set by
error_msg (if any), the final graph, the final value of the pass counter,
and the recorded events. -/
structure ExecResult where
  ok : Bool
  error : Option FlowStatusCode
  graph : Graph
  passes : Int
  events : List Event
deriving DecidableEq

/-- Source flow/mod.rs lines 223-231: returns false exactly when some node
has a stage other than Executed. -/
def job_graph_fully_executed (g : Graph) : Bool :=
  g.nodes.all (fun node => node.stage == NodeStage.Executed)

/-- Source flow/mod.rs lines 337-349: node_weight_mut(node_id).map(set the
stage to Optimized when it is ReadyForOptimize).unwrap_or(false).  Returns
whether the node index was present, plus the updated graph (mutation of
the &mut Graph made explicit). -/
def node_visitor_optimize (g : Graph) (node_id : Nat) : Bool × Graph :=
  match g.nodes[node_id]? with
  | some node =>
      let node2 := if node.stage == NodeStage.ReadyForOptimize
        then { node with stage := NodeStage.Optimized } else node
      (true, { g with nodes := g.nodes.set node_id node2 })
  | none => (false, g)

/-- Source flow/mod.rs lines 351-354: node_weight(node_id).map(frame_est
matches Some(_)).unwrap_or(false). -/
def flow_node_has_dimensions (g : Graph) (node_id : Nat) : Bool :=
  ((g.nodes[node_id]?).map (fun node =>
      match node.frame_est with
      | FrameEstimate.Some _ => true
      | _ => false)).getD false

/-- Source flow/mod.rs lines 356-366: iterate over the parent edges of
node_id; when an edge weight is not EdgeKind::None and its source fails
flow_node_has_dimensions, return false; otherwise true. -/
def flow_node_inputs_have_dimensions (g : Graph) (node_id : Nat) : Bool :=
  g.edges.all (fun e =>
    if e.target == node_id && !(e.kind == EdgeKind.None)
      then flow_node_has_dimensions g e.source
      else true)

/-- Source flow/mod.rs lines 393-415: the body is entirely commented out
(FIXME); the function returns true and touches nothing. -/
def flow_node_populate_dimensions (g : Graph) (node_id : Nat)
    (force_estimate : Bool) : Bool :=
  true

/-- Source flow/mod.rs lines 368-381: calls flow_node_populate_dimensions
(whose failure is only logged by error_return, with no early exit), then
adds the elapsed wall time to cost.wall_ticks of the node when the index
is present.  The measured time is nondeterministic, so the model takes it
as the parameter elapsed; the source casts it to u32 before adding it to
the u64 counter, hence the moduli. -/
def flow_job_populate_dimensions_for_node (g : Graph) (node_id : Nat)
    (force_estimate : Bool) (elapsed : Nat) : Bool × Graph :=
  let _populated := flow_node_populate_dimensions g node_id force_estimate
  match g.nodes[node_id]? with
  | some node =>
      let node2 : Node :=
        { node with cost :=
            { wall_ticks := (node.cost.wall_ticks + elapsed % 2 ^ 32) % 2 ^ 64 } }
      (true, { g with nodes := g.nodes.set node_id node2 })
  | none => (true, g)

/-- Source flow/mod.rs lines 233-242: the walk is commented out (FIXME);
the pass returns true and leaves the graph unchanged. -/
def job_populate_dimensions_where_certain (g : Graph) : Bool × Graph :=
  (true, g)

/-- Source flow/mod.rs lines 244-262: the fixed-point walk is commented
out (FIXME); the pass returns true and leaves the graph unchanged. -/
def graph_pre_optimize_flatten (g : Graph) : Bool × Graph :=
  (true, g)

/-- Source flow/mod.rs lines 264-282: the fixed-point walk (which would
call node_visitor_optimize) is commented out (FIXME); the pass returns
true and leaves the graph unchanged. -/
def graph_optimize (g : Graph) : Bool × Graph :=
  (true, g)

/-- Source flow/mod.rs lines 284-303: the fixed-point walk is commented
out (FIXME); the pass returns true and leaves the graph unchanged. -/
def graph_post_optimize_flatten (g : Graph) : Bool × Graph :=
  (true, g)

/-- Source flow/mod.rs lines 305-325: the dependency-wise walk with
node_visitor_execute is commented out (FIXME); the pass returns true and
leaves the graph unchanged. -/
def job_execute_where_certain (g : Graph) : Bool × Graph :=
  (true, g)

/-- Source flow/mod.rs lines 157-220: the whole debug-snapshot body is
commented out (FIXME); the function returns true and has no effect. -/
def job_notify_graph_changed (g : Graph) : Bool :=
  true

/-- Source flow/mod.rs lines 124-155: calls job_notify_graph_changed and
returns true; the codec lookup over decode and encode nodes is commented
out (FIXME), so no codec is ever resolved and no error is ever raised. -/
def job_link_codecs (g : Graph) : Bool :=
  let _notified := job_notify_graph_changed g
  true

/-- One iteration body of the convergence loop of job_execute (source
lines 66-110): the four dimension populations interleaved with the two
flattens, the optimize and the execute pass, threading the graph through
each pass in source order. -/
def runPassBody (g : Graph) : Graph :=
  let g1 := (job_populate_dimensions_where_certain g).2
  let g2 := (graph_pre_optimize_flatten g1).2
  let g3 := (job_populate_dimensions_where_certain g2).2
  let g4 := (graph_optimize g3).2
  let g5 := (job_populate_dimensions_where_certain g4).2
  let g6 := (graph_post_optimize_flatten g5).2
  let g7 := (job_populate_dimensions_where_certain g6).2
  (job_execute_where_certain g7).2

/-- The events emitted by one iteration body, in source order (each pass
is followed by a job_notify_graph_changed call; the final notification is
the one after the passes counter increment). -/
def passEvents : List Event :=
  [Event.Pass PassKind.PopulateDimensionsWhereCertain, Event.NotifyGraphChanged,
   Event.Pass PassKind.PreOptimizeFlatten, Event.NotifyGraphChanged,
   Event.Pass PassKind.PopulateDimensionsWhereCertain, Event.NotifyGraphChanged,
   Event.Pass PassKind.Optimize, Event.NotifyGraphChanged,
   Event.Pass PassKind.PopulateDimensionsWhereCertain, Event.NotifyGraphChanged,
   Event.Pass PassKind.PostOptimizeFlatten, Event.NotifyGraphChanged,
   Event.Pass PassKind.PopulateDimensionsWhereCertain, Event.NotifyGraphChanged,
   Event.Pass PassKind.ExecuteWhereCertain, Event.NotifyGraphChanged]

/-- The pass invocations of one iteration with the notifications removed:
the pass order the spec states. -/
def corePassEvents : List Event :=
  [Event.Pass PassKind.PopulateDimensionsWhereCertain,
   Event.Pass PassKind.PreOptimizeFlatten,
   Event.Pass PassKind.PopulateDimensionsWhereCertain,
   Event.Pass PassKind.Optimize,
   Event.Pass PassKind.PopulateDimensionsWhereCertain,
   Event.Pass PassKind.PostOptimizeFlatten,
   Event.Pass PassKind.PopulateDimensionsWhereCertain,
   Event.Pass PassKind.ExecuteWhereCertain]

/-- The while loop of job_execute (source lines 61-116): check completion;
if not complete, fail with MaximumGraphPassesExceeded when the pass
counter has reached the ceiling, otherwise run the pass body and increment
the counter.  passes and the ceiling are i32 values, modelled as Int. -/
def jobLoop (maxPasses : Int) (g : Graph) (passes : Int) : ExecResult :=
  if job_graph_fully_executed g then
    { ok := true, error := none, graph := g, passes := passes,
      events := [Event.CheckComplete true] }
  else if maxPasses ≤ passes then
    { ok := false, error := some FlowStatusCode.MaximumGraphPassesExceeded,
      graph := g, passes := passes, events := [Event.CheckComplete false] }
  else
    let r := jobLoop maxPasses (runPassBody g) (passes + 1)
    { r with events := (Event.CheckComplete false :: passEvents) ++ r.events }
termination_by (maxPasses - passes).toNat
decreasing_by omega

/-- Source flow/mod.rs lines 46-122: job_execute notifies, links codecs
(which notifies again), then runs the convergence loop with the pass
counter starting at zero.  The trailing debug png render (lines 117-120)
is file output only and cannot change the returned value. -/
def job_execute (maxPasses : Int) (g : Graph) : ExecResult :=
  let _notified := job_notify_graph_changed g
  let _linked := job_link_codecs g
  let r := jobLoop maxPasses g 0
  { r with events :=
      [Event.NotifyGraphChanged, Event.LinkCodecs, Event.NotifyGraphChanged]
        ++ r.events }

/-- Source licensing/mod.rs lines 226-235, the while loop of powm: while
exp is positive, multiply the accumulator by base modulo the modulus when
exp is odd, then halve exp and square base modulo the modulus.  num-bigint
uses truncated division and remainder, hence Int.tmod and Int.tdiv (the
shift right by one of a positive BigInt is division by two). -/
def RSADecryptPublic.powmLoop (base exp result modulus : Int) : Int :=
  if 0 < exp then
    let r2 := if Int.tmod exp 2 == 1 then Int.tmod (result * base) modulus else result
    RSADecryptPublic.powmLoop (Int.tmod (base * base) modulus) (Int.tdiv exp 2)
      r2 modulus
  else result
termination_by exp.toNat
decreasing_by
  rename_i h
  rw [Int.tdiv_eq_ediv (by omega) (by omega)]
  omega

/-- Source licensing/mod.rs lines 220-236: RSADecryptPublic::powm reduces
the base modulo the modulus, starts the accumulator at one, and runs the
square-and-multiply loop. -/
def RSADecryptPublic.powm (base exp modulus : Int) : Int :=
  RSADecryptPublic.powmLoop (Int.tmod base modulus) exp 1 modulus

/-- Fixture: a graph with a single node still at stage New. -/
def gOneNew : Graph :=
  { nodes := [{ stage := NodeStage.New, frame_est := FrameEstimate.None,
                cost := { wall_ticks := 0 } }],
    edges := [] }

/-- Fixture: a graph with a single node at stage ReadyForOptimize. -/
def gOneReadyOpt : Graph :=
  { nodes := [{ stage := NodeStage.ReadyForOptimize, frame_est := FrameEstimate.None,
                cost := { wall_ticks := 3 } }],
    edges := [] }

/-- Fixture: a graph with a single node at stage ReadyForExecution and no
edges, so all its data-dependency inputs are vacuously executed. -/
def gOneReadyExec : Graph :=
  { nodes := [{ stage := NodeStage.ReadyForExecution, frame_est := FrameEstimate.None,
                cost := { wall_ticks := 0 } }],
    edges := [] }

/-- Fixture: node 0 has a populated frame estimate, node 1 depends on it
through an Input edge and also has an advisory None edge from node 0. -/
def gTwo : Graph :=
  { nodes := [{ stage := NodeStage.OutboundDimensionsKnown,
                frame_est := FrameEstimate.Some { width := 4, height := 3 },
                cost := { wall_ticks := 0 } },
              { stage := NodeStage.New, frame_est := FrameEstimate.None,
                cost := { wall_ticks := 0 } }],
    edges := [{ source := 0, target := 1, kind := EdgeKind.Input },
              { source := 0, target := 1, kind := EdgeKind.None }] }

/-- The completion check is the all-Executed predicate over the node table. -/
theorem job_graph_fully_executed_iff (g : Graph) :
    job_graph_fully_executed g = true ↔
      ∀ node ∈ g.nodes, node.stage = NodeStage.Executed := by
  simp [job_graph_fully_executed, List.all_eq_true, beq_iff_eq]

/-- Every pass of the convergence loop is a stub in the source, so the
iteration body leaves the graph unchanged. -/
theorem runPassBody_id (g : Graph) : runPassBody g = g := rfl

/-- When the graph is already fully executed, the loop stops at once with
success and no further events. -/
theorem jobLoop_done (m p : Int) (g : Graph)
    (h : job_graph_fully_executed g = true) :
    jobLoop m g p =
      { ok := true, error := none, graph := g, passes := p,
        events := [Event.CheckComplete true] } := by
  rw [jobLoop, if_pos h]

/-- When the graph is not fully executed it stays so (the passes are
stubs), hence the loop runs until the ceiling and fails, having made
exactly (m - p).toNat iterations. -/
theorem jobLoop_stuck (m : Int) (g : Graph)
    (h : job_graph_fully_executed g = false) :
    ∀ (n : Nat) (p : Int), (m - p).toNat = n →
      jobLoop m g p =
        { ok := false, error := some FlowStatusCode.MaximumGraphPassesExceeded,
          graph := g, passes := p + (n : Int),
          events :=
            (List.replicate n (Event.CheckComplete false :: passEvents)).flatten
              ++ [Event.CheckComplete false] } := by
  intro n
  induction n with
  | zero =>
      intro p hp
      rw [jobLoop, if_neg (by simp [h]), if_pos (by omega)]
      simp
  | succ k ih =>
      intro p hp
      rw [jobLoop, if_neg (by simp [h]), if_neg (by omega)]
      simp only [runPassBody_id]
      rw [ih (p + 1) (by omega)]
      simp [List.replicate_succ, ExecResult.mk.injEq]
      omega

/-- The returned flag of job_execute is the flag of the loop. -/
theorem job_execute_ok (N : Int) (g : Graph) :
    (job_execute N g).ok = (jobLoop N g 0).ok := rfl

/-- The error of job_execute is the error of the loop. -/
theorem job_execute_error (N : Int) (g : Graph) :
    (job_execute N g).error = (jobLoop N g 0).error := rfl

/-- The final graph of job_execute is the final graph of the loop. -/
theorem job_execute_graph (N : Int) (g : Graph) :
    (job_execute N g).graph = (jobLoop N g 0).graph := rfl

/-- The final pass counter of job_execute is that of the loop, started at
zero. -/
theorem job_execute_passes (N : Int) (g : Graph) :
    (job_execute N g).passes = (jobLoop N g 0).passes := rfl

/-- The events of job_execute: the initial notification, the codec
linking with its inner notification, then the loop events. -/
theorem job_execute_events (N : Int) (g : Graph) :
    (job_execute N g).events =
      [Event.NotifyGraphChanged, Event.LinkCodecs, Event.NotifyGraphChanged]
        ++ (jobLoop N g 0).events := rfl

/-- Claim C1: for every input graph and every pass ceiling N with N at
least one, job_execute terminates with either true in a state where every
node stage is Executed, or false after signaling
MaximumGraphPassesExceeded, and the convergence loop runs at most N
iterations (the pass counter, incremented once per iteration and checked
against the ceiling before every iteration, ends no greater than N). -/
theorem job_execute_terminates (g : Graph) (N : Int) (hN : 1 ≤ N) :
    (((job_execute N g).ok = true ∧
        ∀ node ∈ (job_execute N g).graph.nodes,
          node.stage = NodeStage.Executed) ∨
      ((job_execute N g).ok = false ∧
        (job_execute N g).error = some FlowStatusCode.MaximumGraphPassesExceeded)) ∧
    (job_execute N g).passes ≤ N := by
  cases hfe : job_graph_fully_executed g with
  | false =>
      rw [job_execute_ok, job_execute_error, job_execute_passes,
        jobLoop_stuck N g hfe (N - 0).toNat 0 rfl]
      refine ⟨Or.inr ⟨rfl, rfl⟩, ?_⟩
      show (0 + ((N - 0).toNat : Int)) ≤ N
      omega
  | true =>
      rw [job_execute_ok, job_execute_graph, job_execute_passes,
        jobLoop_done N 0 g hfe]
      refine ⟨Or.inl ⟨rfl, (job_graph_fully_executed_iff g).1 hfe⟩, ?_⟩
      show (0 : Int) ≤ N
      omega

/-- Witness for claim C1 at a one-node graph not yet executed and ceiling
one: the loop fails with MaximumGraphPassesExceeded after one pass. -/
theorem job_execute_terminates_witness :
    (1 : Int) ≤ 1 ∧
    ((((job_execute 1 gOneNew).ok = true ∧
        ∀ node ∈ (job_execute 1 gOneNew).graph.nodes,
          node.stage = NodeStage.Executed) ∨
      ((job_execute 1 gOneNew).ok = false ∧
        (job_execute 1 gOneNew).error =
          some FlowStatusCode.MaximumGraphPassesExceeded)) ∧
    (job_execute 1 gOneNew).passes ≤ 1) :=
  ⟨by decide, job_execute_terminates gOneNew 1 (by decide)⟩

/-- Claim C3 (the code diverges from the spec here): job_link_codecs in
the source returns true for every graph without consulting any codec
registry (its lookup body is commented out), and consequently job_execute
never reports CodecNotFound; the convergence loop starts even when a
decode node has no bound codec. -/
theorem job_link_codecs_always_true :
    (∀ g : Graph, job_link_codecs g = true) ∧
    (∀ (g : Graph) (N : Int),
      (job_execute N g).error ≠ some FlowStatusCode.CodecNotFound) := by
  refine ⟨fun g => rfl, fun g N => ?_⟩
  rw [job_execute_error]
  cases hfe : job_graph_fully_executed g with
  | false => rw [jobLoop_stuck N g hfe (N - 0).toNat 0 rfl]; simp
  | true => rw [jobLoop_done N 0 g hfe]; simp

/-- Claim C4 (the code diverges from the spec here): the execute pass is a
stub in the source; on a graph whose single node is ReadyForExecution with
no dependency edges, job_execute_where_certain succeeds yet leaves the
node at ReadyForExecution instead of Executed. -/
theorem job_execute_where_certain_no_execute :
    job_execute_where_certain gOneReadyExec = (true, gOneReadyExec) ∧
    ((job_execute_where_certain gOneReadyExec).2.nodes.getD 0 default).stage =
      NodeStage.ReadyForExecution ∧
    NodeStage.ReadyForExecution ≠ NodeStage.Executed :=
  ⟨rfl, rfl, by decide⟩

/-- Claim C9: on a graph with zero nodes the all-Executed check is
vacuously true, so job_execute returns true immediately, with a pass
counter of zero and no pass invoked, for every ceiling including zero. -/
theorem job_execute_empty_graph (edges : List Edge) (N : Int) :
    job_graph_fully_executed { nodes := [], edges := edges } = true ∧
    (job_execute N { nodes := [], edges := edges }).ok = true ∧
    (job_execute N { nodes := [], edges := edges }).passes = 0 ∧
    (job_execute N { nodes := [], edges := edges }).events.filter Event.isPass
      = [] := by
  have hfe : job_graph_fully_executed { nodes := [], edges := edges } = true := rfl
  refine ⟨hfe, ?_, ?_, ?_⟩
  · rw [job_execute_ok, jobLoop_done N 0 _ hfe]
  · rw [job_execute_passes, jobLoop_done N 0 _ hfe]
  · rw [job_execute_events, jobLoop_done N 0 _ hfe]
    rfl

/-- Filtering the notifications out of one iteration block leaves the
completion check followed by the eight pass invocations in order. -/
theorem filter_passBlock :
    List.filter (fun e => ! e.isNotify)
        (Event.CheckComplete false :: passEvents) =
      Event.CheckComplete false :: corePassEvents := rfl

/-- The previous computation, distributed over k iteration blocks. -/
theorem filter_flatten_replicate (k : Nat) :
    List.filter (fun e => ! e.isNotify)
        ((List.replicate k (Event.CheckComplete false :: passEvents)).flatten) =
      (List.replicate k (Event.CheckComplete false :: corePassEvents)).flatten := by
  induction k with
  | zero => rfl
  | succ n ih =>
      simp only [List.replicate_succ, List.flatten_cons, List.filter_append, ih,
        filter_passBlock]

/-- Claim C2: job_execute links codecs exactly once before the loop, and
every loop iteration, entered only after the completion check came back
false and below the ceiling, invokes the passes in the order
populate-dimensions, pre-optimize flatten, populate-dimensions, optimize,
populate-dimensions, post-optimize flatten, populate-dimensions,
execute-where-certain, then increments the pass counter by one (the final
counter equals the number of iterations k); a completion check precedes
every iteration and a final check or the failing check ends the trace. -/
theorem job_execute_pass_sequence (g : Graph) (N : Int) :
    ∃ k : Nat,
      (job_execute N g).events.filter (fun e => ! e.isNotify) =
        Event.LinkCodecs ::
          ((List.replicate k (Event.CheckComplete false :: corePassEvents)).flatten
            ++ [Event.CheckComplete (job_execute N g).ok]) ∧
      (job_execute N g).passes = (k : Int) := by
  cases hfe : job_graph_fully_executed g with
  | true =>
      refine ⟨0, ?_, ?_⟩
      · rw [job_execute_events, job_execute_ok, jobLoop_done N 0 g hfe]
        rfl
      · rw [job_execute_passes, jobLoop_done N 0 g hfe]
        rfl
  | false =>
      refine ⟨(N - 0).toNat, ?_, ?_⟩
      · rw [job_execute_events, job_execute_ok,
          jobLoop_stuck N g hfe (N - 0).toNat 0 rfl]
        show List.filter _ ([Event.NotifyGraphChanged, Event.LinkCodecs,
            Event.NotifyGraphChanged] ++ _) = _
        rw [List.filter_append, List.filter_append, filter_flatten_replicate]
        rfl
      · rw [job_execute_passes, jobLoop_stuck N g hfe (N - 0).toNat 0 rfl]
        show (0 + (((N - 0).toNat : Nat) : Int)) = _
        omega

/-- Claim C5: during one run of job_execute no node stage moves backward:
the stage of every node index in the final graph is at least its stage in
the input graph (the passes of the source are stubs, so stages are in
fact unchanged), and the one live stage mutator, node_visitor_optimize,
also never lowers the stage of any node. -/
theorem job_execute_stage_monotone (g : Graph) (N : Int) :
    (∀ i : Nat,
      stageIdx ((g.nodes.getD i default).stage) ≤
        stageIdx (((job_execute N g).graph.nodes.getD i default).stage)) ∧
    (∀ node_id j : Nat,
      stageIdx ((g.nodes.getD j default).stage) ≤
        stageIdx (((node_visitor_optimize g node_id).2.nodes.getD j default).stage)) := by
  constructor
  · intro i
    have hgraph : (job_execute N g).graph = g := by
      cases hfe : job_graph_fully_executed g with
      | false => rw [job_execute_graph, jobLoop_stuck N g hfe (N - 0).toNat 0 rfl]
      | true => rw [job_execute_graph, jobLoop_done N 0 g hfe]
    rw [hgraph]
  · intro node_id j
    cases hn : g.nodes[node_id]? with
    | none => simp [node_visitor_optimize, hn]
    | some node =>
        simp only [node_visitor_optimize, hn]
        by_cases hj : j = node_id
        · subst hj
          have hlt : j < g.nodes.length := by
            by_contra hge
            rw [List.getElem?_eq_none (by omega)] at hn
            cases hn
          rw [List.getD_eq_getElem?_getD, List.getD_eq_getElem?_getD,
            List.getElem?_set_self hlt, hn]
          by_cases hs : node.stage = NodeStage.ReadyForOptimize
          · simp [hs, stageIdx]
          · simp [hs]
        · rw [List.getD_eq_getElem?_getD, List.getD_eq_getElem?_getD,
            List.getElem?_set_ne (fun h => hj h.symm)]

/-- Claim C6: applied to a node index present in the graph,
node_visitor_optimize returns true, rewrites that node stage to Optimized
exactly when it was ReadyForOptimize (leaving it unchanged otherwise,
and leaving the frame estimate, the cost and every other node and the
edges unchanged); applied to an absent index it returns false and leaves
the graph unchanged. -/
theorem node_visitor_optimize_spec (g : Graph) (node_id : Nat) :
    (node_id < g.nodes.length →
      (node_visitor_optimize g node_id).1 = true ∧
      (node_visitor_optimize g node_id).2.edges = g.edges ∧
      (∀ j : Nat, j ≠ node_id →
        (node_visitor_optimize g node_id).2.nodes[j]? = g.nodes[j]?) ∧
      (∃ old : Node, g.nodes[node_id]? = some old ∧
        (node_visitor_optimize g node_id).2.nodes[node_id]? =
          some { old with stage :=
            if old.stage = NodeStage.ReadyForOptimize then NodeStage.Optimized
            else old.stage })) ∧
    (g.nodes.length ≤ node_id →
      (node_visitor_optimize g node_id).1 = false ∧
      (node_visitor_optimize g node_id).2 = g) := by
  constructor
  · intro hlt
    obtain ⟨node, hn⟩ : ∃ node, g.nodes[node_id]? = some node :=
      ⟨g.nodes[node_id], List.getElem?_eq_getElem hlt⟩
    have hchar : node_visitor_optimize g node_id =
        (true, { g with nodes := g.nodes.set node_id (if node.stage == NodeStage.ReadyForOptimize then { node with stage := NodeStage.Optimized } else node) }) := by
      unfold node_visitor_optimize
      rw [hn]
    rw [hchar]
    refine ⟨rfl, rfl, ?_, ?_⟩
    · intro j hj
      exact List.getElem?_set_ne (fun h => hj h.symm)
    · refine ⟨node, hn, ?_⟩
      show (g.nodes.set node_id _)[node_id]? = _
      rw [List.getElem?_set_self hlt]
      by_cases hs : node.stage = NodeStage.ReadyForOptimize
      · simp [hs]
      · simp [hs]
  · intro hge
    have hn : g.nodes[node_id]? = none := List.getElem?_eq_none hge
    have hchar : node_visitor_optimize g node_id = (false, g) := by
      unfold node_visitor_optimize
      rw [hn]
    rw [hchar]
    exact ⟨rfl, rfl⟩

/-- Witness for claim C6 at a one-node graph whose node is
ReadyForOptimize, index zero present. -/
theorem node_visitor_optimize_spec_witness :
    (0 : Nat) < gOneReadyOpt.nodes.length ∧
    ((node_visitor_optimize gOneReadyOpt 0).1 = true ∧
      (node_visitor_optimize gOneReadyOpt 0).2.edges = gOneReadyOpt.edges ∧
      (∀ j : Nat, j ≠ 0 →
        (node_visitor_optimize gOneReadyOpt 0).2.nodes[j]? = gOneReadyOpt.nodes[j]?) ∧
      (∃ old : Node, gOneReadyOpt.nodes[0]? = some old ∧
        (node_visitor_optimize gOneReadyOpt 0).2.nodes[0]? =
          some { old with stage :=
            if old.stage = NodeStage.ReadyForOptimize then NodeStage.Optimized
            else old.stage })) :=
  ⟨by decide, (node_visitor_optimize_spec gOneReadyOpt 0).1 (by decide)⟩

/-- A present node passes flow_node_has_dimensions exactly when its frame
estimate is populated. -/
theorem flow_node_has_dimensions_iff (g : Graph) (i : Nat)
    (hi : i < g.nodes.length) :
    flow_node_has_dimensions g i = true ↔
      ∃ info : FrameInfo,
        (g.nodes.getD i default).frame_est = FrameEstimate.Some info := by
  unfold flow_node_has_dimensions
  rw [List.getD_eq_getElem?_getD, List.getElem?_eq_getElem hi]
  cases h : (g.nodes[i]).frame_est with
  | None => simp [h]
  | Some info => simp [h]

/-- Claim C7: flow_node_inputs_have_dimensions g n is true exactly when
every parent of n over an edge of kind other than None has a populated
frame estimate; parents reached only through None (advisory) edges are
ignored, so when every inbound edge of n is of kind None the check always
passes.  The graph is assumed well formed: every edge source denotes a
present node. -/
theorem flow_node_inputs_have_dimensions_spec (g : Graph) (n : Nat)
    (hwf : ∀ e ∈ g.edges, e.source < g.nodes.length) :
    (flow_node_inputs_have_dimensions g n = true ↔
      ∀ e ∈ g.edges, e.target = n → e.kind ≠ EdgeKind.None →
        ∃ info : FrameInfo,
          (g.nodes.getD e.source default).frame_est = FrameEstimate.Some info) ∧
    ((∀ e ∈ g.edges, e.target = n → e.kind = EdgeKind.None) →
      flow_node_inputs_have_dimensions g n = true) := by
  have key : flow_node_inputs_have_dimensions g n = true ↔
      ∀ e ∈ g.edges, e.target = n → e.kind ≠ EdgeKind.None →
        flow_node_has_dimensions g e.source = true := by
    unfold flow_node_inputs_have_dimensions
    rw [List.all_eq_true]
    constructor
    · intro h e he ht hk
      have h2 := h e he
      rw [if_pos (by simp [ht, hk])] at h2
      exact h2
    · intro h e he
      by_cases ht : e.target = n
      · by_cases hk : e.kind = EdgeKind.None
        · rw [if_neg (by simp [hk])]
        · rw [if_pos (by simp [ht, hk])]
          exact h e he ht hk
      · rw [if_neg (by simp [ht])]
  constructor
  · rw [key]
    constructor
    · intro h e he ht hk
      exact (flow_node_has_dimensions_iff g e.source (hwf e he)).1 (h e he ht hk)
    · intro h e he ht hk
      exact (flow_node_has_dimensions_iff g e.source (hwf e he)).2 (h e he ht hk)
  · intro hall
    rw [key]
    intro e he ht hk
    exact absurd (hall e he ht) hk

/-- Witness for claim C7 at the two-node fixture: node 1 has an Input
parent with populated dimensions and an advisory None parent. -/
theorem flow_node_inputs_have_dimensions_spec_witness :
    (∀ e ∈ gTwo.edges, e.source < gTwo.nodes.length) ∧
    ((flow_node_inputs_have_dimensions gTwo 1 = true ↔
      ∀ e ∈ gTwo.edges, e.target = 1 → e.kind ≠ EdgeKind.None →
        ∃ info : FrameInfo,
          (gTwo.nodes.getD e.source default).frame_est = FrameEstimate.Some info) ∧
    ((∀ e ∈ gTwo.edges, e.target = 1 → e.kind = EdgeKind.None) →
      flow_node_inputs_have_dimensions gTwo 1 = true)) :=
  ⟨by decide, flow_node_inputs_have_dimensions_spec gTwo 1 (by decide)⟩

/-- Claim C8: a successful call of flow_job_populate_dimensions_for_node
on a present node index (with the addition to the 64-bit counter not
wrapping) returns true and only adds the elapsed wall time, truncated to
32 bits by the source cast, to cost.wall_ticks of that node: the counter
never decreases and is not reset, the stage and frame estimate of the
node are untouched, and every other node and the edges are unchanged. -/
theorem flow_job_populate_dimensions_for_node_spec (g : Graph)
    (node_id : Nat) (force_estimate : Bool) (elapsed : Nat)
    (hlt : node_id < g.nodes.length)
    (hof : (g.nodes.getD node_id default).cost.wall_ticks + elapsed % 2 ^ 32
      < 2 ^ 64) :
    (flow_job_populate_dimensions_for_node g node_id force_estimate elapsed).1
      = true ∧
    (((flow_job_populate_dimensions_for_node g node_id force_estimate
        elapsed).2.nodes.getD node_id default).cost.wall_ticks =
      (g.nodes.getD node_id default).cost.wall_ticks + elapsed % 2 ^ 32) ∧
    ((g.nodes.getD node_id default).cost.wall_ticks ≤
      ((flow_job_populate_dimensions_for_node g node_id force_estimate
        elapsed).2.nodes.getD node_id default).cost.wall_ticks) ∧
    (((flow_job_populate_dimensions_for_node g node_id force_estimate
        elapsed).2.nodes.getD node_id default).stage =
      (g.nodes.getD node_id default).stage) ∧
    (((flow_job_populate_dimensions_for_node g node_id force_estimate
        elapsed).2.nodes.getD node_id default).frame_est =
      (g.nodes.getD node_id default).frame_est) ∧
    (∀ j : Nat, j ≠ node_id →
      (flow_job_populate_dimensions_for_node g node_id force_estimate
        elapsed).2.nodes[j]? = g.nodes[j]?) ∧
    (flow_job_populate_dimensions_for_node g node_id force_estimate
      elapsed).2.edges = g.edges := by
  obtain ⟨node, hn⟩ : ∃ node, g.nodes[node_id]? = some node :=
    ⟨g.nodes[node_id], List.getElem?_eq_getElem hlt⟩
  have hgetD : g.nodes.getD node_id default = node := by
    rw [List.getD_eq_getElem?_getD, hn]
    rfl
  have hchar : flow_job_populate_dimensions_for_node g node_id force_estimate
      elapsed =
      (true, { g with nodes := g.nodes.set node_id { node with cost := { wall_ticks := (node.cost.wall_ticks + elapsed % 2 ^ 32) % 2 ^ 64 } } }) := by
    unfold flow_job_populate_dimensions_for_node
    rw [hn]
  have hmod : (node.cost.wall_ticks + elapsed % 2 ^ 32) % 2 ^ 64 =
      node.cost.wall_ticks + elapsed % 2 ^ 32 := by
    rw [hgetD] at hof
    exact Nat.mod_eq_of_lt hof
  have hset : ((g.nodes.set node_id { node with cost := { wall_ticks := (node.cost.wall_ticks + elapsed % 2 ^ 32) % 2 ^ 64 } }).getD node_id default) =
      { node with cost := { wall_ticks := (node.cost.wall_ticks + elapsed % 2 ^ 32) % 2 ^ 64 } } := by
    rw [List.getD_eq_getElem?_getD, List.getElem?_set_self hlt]
    rfl
  rw [hchar]
  refine ⟨rfl, ?_, ?_, ?_, ?_, ?_, rfl⟩
  · show ((g.nodes.set node_id _).getD node_id default).cost.wall_ticks = _
    rw [hset, hgetD]
    exact hmod
  · show _ ≤ ((g.nodes.set node_id _).getD node_id default).cost.wall_ticks
    rw [hset, hgetD]
    show node.cost.wall_ticks ≤ (node.cost.wall_ticks + elapsed % 2 ^ 32) % 2 ^ 64
    omega
  · show ((g.nodes.set node_id _).getD node_id default).stage = _
    rw [hset, hgetD]
  · show ((g.nodes.set node_id _).getD node_id default).frame_est = _
    rw [hset, hgetD]
  · intro j hj
    exact List.getElem?_set_ne (fun h => hj h.symm)

/-- Witness for claim C8 at the one-node fixture with three accumulated
ticks and five elapsed nanoseconds. -/
theorem flow_job_populate_dimensions_for_node_spec_witness :
    ((0 : Nat) < gOneReadyOpt.nodes.length ∧
      (gOneReadyOpt.nodes.getD 0 default).cost.wall_ticks + 5 % 2 ^ 32
        < 2 ^ 64) ∧
    ((flow_job_populate_dimensions_for_node gOneReadyOpt 0 false 5).1 = true ∧
    (((flow_job_populate_dimensions_for_node gOneReadyOpt 0 false
        5).2.nodes.getD 0 default).cost.wall_ticks =
      (gOneReadyOpt.nodes.getD 0 default).cost.wall_ticks + 5 % 2 ^ 32) ∧
    ((gOneReadyOpt.nodes.getD 0 default).cost.wall_ticks ≤
      ((flow_job_populate_dimensions_for_node gOneReadyOpt 0 false
        5).2.nodes.getD 0 default).cost.wall_ticks) ∧
    (((flow_job_populate_dimensions_for_node gOneReadyOpt 0 false
        5).2.nodes.getD 0 default).stage =
      (gOneReadyOpt.nodes.getD 0 default).stage) ∧
    (((flow_job_populate_dimensions_for_node gOneReadyOpt 0 false
        5).2.nodes.getD 0 default).frame_est =
      (gOneReadyOpt.nodes.getD 0 default).frame_est) ∧
    (∀ j : Nat, j ≠ 0 →
      (flow_job_populate_dimensions_for_node gOneReadyOpt 0 false
        5).2.nodes[j]? = gOneReadyOpt.nodes[j]?) ∧
    (flow_job_populate_dimensions_for_node gOneReadyOpt 0 false 5).2.edges =
      gOneReadyOpt.edges) :=
  ⟨⟨by decide, by decide⟩,
    flow_job_populate_dimensions_for_node_spec gOneReadyOpt 0 false 5
      (by decide) (by decide)⟩

/-- Reducing the base modulo m before exponentiation does not change the
residue of the power. -/
theorem pow_emod_base (a : Int) (n : Nat) (m : Int) :
    a ^ n % m = (a % m) ^ n % m := by
  induction n with
  | zero => rfl
  | succ k ih =>
      calc a ^ (k + 1) % m = a ^ k * a % m := by rw [pow_succ]
        _ = a ^ k % m * (a % m) % m := Int.mul_emod _ _ _
        _ = (a % m) ^ k % m * (a % m % m) % m := by
              rw [ih, Int.emod_emod_of_dvd _ dvd_rfl]
        _ = (a % m) ^ k * (a % m) % m := (Int.mul_emod _ _ _).symm
        _ = (a % m) ^ (k + 1) % m := by rw [pow_succ]

/-- The square-and-multiply loop computes the modular power: for a
positive exponent it returns the residue of result times base to the
exponent; for exponent zero it returns the accumulator unreduced. -/
theorem powmLoop_eq (m : Int) (hm : 0 < m) :
    ∀ (n : Nat) (b r : Int), 0 ≤ b → 0 ≤ r →
      RSADecryptPublic.powmLoop b (n : Int) r m =
        if n = 0 then r else r * b ^ n % m := by
  intro n
  induction n using Nat.strong_induction_on with
  | _ n ih =>
    intro b r hb hr
    rw [RSADecryptPublic.powmLoop]
    by_cases hn : n = 0
    · subst hn
      norm_num
    · have hpos : 0 < ((n : Nat) : Int) := by omega
      rw [if_pos hpos, if_neg hn]
      have htm : Int.tmod ((n : Nat) : Int) 2 = (((n % 2 : Nat) : Nat) : Int) :=
        (Int.ofNat_tmod n 2).symm
      have htd : Int.tdiv ((n : Nat) : Int) 2 = (((n / 2 : Nat) : Nat) : Int) :=
        (Int.ofNat_tdiv n 2).symm
      rw [htm, htd]
      have hb2 : (0 : Int) ≤ Int.tmod (b * b) m := by
        rw [Int.tmod_eq_emod (mul_nonneg hb hb) hm.le]
        exact Int.emod_nonneg _ (ne_of_gt hm)
      have hdivlt : n / 2 < n := Nat.div_lt_self (Nat.pos_of_ne_zero hn) one_lt_two
      by_cases hpar : n % 2 = 1
      · rw [if_pos (show ((((n % 2 : Nat) : Nat) : Int) == 1) = true by simp [hpar])]
        rw [Int.tmod_eq_emod (mul_nonneg hr hb) hm.le,
          Int.tmod_eq_emod (mul_nonneg hb hb) hm.le,
          ih (n / 2) hdivlt (b * b % m) (r * b % m)
            (Int.emod_nonneg _ (ne_of_gt hm)) (Int.emod_nonneg _ (ne_of_gt hm))]
        by_cases h2 : n / 2 = 0
        · have hn1 : n = 1 := by omega
          subst hn1
          simp
        · rw [if_neg h2]
          have e1 : r * b % m ≡ r * b [ZMOD m] := Int.emod_emod_of_dvd _ dvd_rfl
          have e2 : b * b % m ≡ b * b [ZMOD m] := Int.emod_emod_of_dvd _ dvd_rfl
          have e3 : r * b % m * (b * b % m) ^ (n / 2) ≡ r * b * (b * b) ^ (n / 2) [ZMOD m] :=
            e1.mul (e2.pow (n / 2))
          have key : r * b * (b * b) ^ (n / 2) = r * b ^ n := by
            have hsplit : 2 * (n / 2) + 1 = n := by omega
            calc r * b * (b * b) ^ (n / 2) = r * (b ^ (2 * (n / 2)) * b) := by
                  rw [pow_mul]
                  ring
              _ = r * b ^ (2 * (n / 2) + 1) := by rw [pow_succ]
              _ = r * b ^ n := by rw [hsplit]
          have e4 : r * b % m * (b * b % m) ^ (n / 2) % m = r * b * (b * b) ^ (n / 2) % m := e3
          rw [e4, key]
      · have hpar0 : n % 2 = 0 := by omega
        rw [if_neg (show ¬ ((((n % 2 : Nat) : Nat) : Int) == 1) = true by simp [hpar0])]
        rw [Int.tmod_eq_emod (mul_nonneg hb hb) hm.le,
          ih (n / 2) hdivlt (b * b % m) r (Int.emod_nonneg _ (ne_of_gt hm)) hr]
        have h2 : n / 2 ≠ 0 := by omega
        rw [if_neg h2]
        have e2 : b * b % m ≡ b * b [ZMOD m] := Int.emod_emod_of_dvd _ dvd_rfl
        have e3 : r * (b * b % m) ^ (n / 2) ≡ r * (b * b) ^ (n / 2) [ZMOD m] :=
          Int.ModEq.mul Int.ModEq.rfl (e2.pow (n / 2))
        have key : r * (b * b) ^ (n / 2) = r * b ^ n := by
          have hsplit : 2 * (n / 2) = n := by omega
          calc r * (b * b) ^ (n / 2) = r * b ^ (2 * (n / 2)) := by
                rw [pow_mul]
                ring_nf
            _ = r * b ^ n := by rw [hsplit]
        have e4 : r * (b * b % m) ^ (n / 2) % m = r * (b * b) ^ (n / 2) % m := e3
        rw [e4, key]

/-- Claim C10 counterexample: at base 0, exponent 0 and modulus 1 powm
returns its initial accumulator 1 unreduced, while modular exponentiation
modulo 1 yields 0; in particular the returned value is not below the
modulus, so the claim fails as stated. -/
theorem powm_counterexample :
    RSADecryptPublic.powm 0 0 1 = 1 ∧
    (0 : Int) ^ ((0 : Int).toNat) % 1 = 0 ∧
    ¬ RSADecryptPublic.powm 0 0 1 < 1 := by
  have h : RSADecryptPublic.powm 0 0 1 = 1 := by
    unfold RSADecryptPublic.powm
    rw [RSADecryptPublic.powmLoop]
    norm_num
  refine ⟨h, by decide, ?_⟩
  rw [h]
  decide

/-- Claim C10 (amended): for every nonnegative base, nonnegative exponent
and positive modulus such that the modulus exceeds one or the exponent is
positive, RSADecryptPublic.powm returns the mathematical modular power,
a value at least zero and below the modulus.  (In the excluded corner
case, exponent zero with modulus one, powm returns 1 instead of 0.) -/
theorem powm_spec (base exp modulus : Int)
    (hb : 0 ≤ base) (he : 0 ≤ exp) (hm : 0 < modulus)
    (hnd : 1 < modulus ∨ 0 < exp) :
    RSADecryptPublic.powm base exp modulus = base ^ exp.toNat % modulus ∧
    0 ≤ RSADecryptPublic.powm base exp modulus ∧
    RSADecryptPublic.powm base exp modulus < modulus := by
  have main : RSADecryptPublic.powm base exp modulus
      = base ^ exp.toNat % modulus := by
    unfold RSADecryptPublic.powm
    rw [Int.tmod_eq_emod hb hm.le]
    have hexp : ((exp.toNat : Nat) : Int) = exp := Int.toNat_of_nonneg he
    have hloop := powmLoop_eq modulus hm exp.toNat (base % modulus) 1
      (Int.emod_nonneg base (ne_of_gt hm)) zero_le_one
    rw [hexp] at hloop
    rw [hloop]
    by_cases h0 : exp.toNat = 0
    · rw [if_pos h0, h0, pow_zero]
      have hm1 : 1 < modulus := by
        rcases hnd with h | h
        · exact h
        · exfalso
          omega
      rw [Int.emod_eq_of_lt zero_le_one hm1]
    · rw [if_neg h0, one_mul, ← pow_emod_base]
  have hrange1 : 0 ≤ base ^ exp.toNat % modulus :=
    Int.emod_nonneg _ (ne_of_gt hm)
  have hrange2 : base ^ exp.toNat % modulus < modulus :=
    Int.emod_lt_of_pos _ hm
  exact ⟨main, by rw [main]; exact hrange1, by rw [main]; exact hrange2⟩

/-- Witness for the amended claim C10 at base 3, exponent 5, modulus 7:
the hypotheses hold and powm computes the modular power. -/
theorem powm_spec_witness :
    ((0 : Int) ≤ 3 ∧ (0 : Int) ≤ 5 ∧ (0 : Int) < 7 ∧ ((1 : Int) < 7 ∨ (0 : Int) < 5)) ∧
    (RSADecryptPublic.powm 3 5 7 = 3 ^ ((5 : Int).toNat) % 7 ∧
      0 ≤ RSADecryptPublic.powm 3 5 7 ∧
      RSADecryptPublic.powm 3 5 7 < 7) :=
  ⟨⟨by decide, by decide, by decide, Or.inl (by decide)⟩,
    powm_spec 3 5 7 (by decide) (by decide) (by decide) (Or.inl (by decide))⟩
